import Mathlib

/-!
Verification development for the ffmpeg-installer package.

The repository downloads prebuilt FFmpeg/FFprobe binaries for the host
platform, optionally extracts an archive, searches the extracted tree for the
binary, places it in a per-platform directory, marks it executable on
non-Windows targets, and records what was installed in a JSON config file.

This file gives a shallow embedding of the relevant code:

- string and path helpers are modelled over the underlying character lists
  (the source manipulates ASCII file names and forward-slash paths);
- the filesystem is an association list from absolute path to file data
  (content plus permission mode); directories are implicit;
- network fetches and archive extraction are oracles supplied as input
  (a fetch outcome is the list of streamed chunks plus a success flag; an
  extraction outcome is a success flag plus the extracted directory tree);
- the three variants of the acquisition pipeline present in the sources are
  modelled separately and faithfully:
  downloadBinaries (the archive pipeline with registry lookup, temp dir,
  breadth-first search and config update), downloadBinariesRelease (the
  GitHub-release variant that streams each binary straight to its final
  path), and processPlatform (the maintainer preprocessing script with the
  secondary-download logic).
-/

/-! ## String helpers over character lists

Core String functions such as toLower or startsWith are byte-position based
and do not reduce in the kernel, so the embedding defines the few operations
the source uses directly over the character list of a string.  The source
only ever compares ASCII file names, for which these agree with the
JavaScript operations. -/

/-- ASCII lower-casing of a single character code, as used by
String.prototype.toLowerCase on the file names involved. -/
def lowerCode (n : Nat) : Nat := if 65 ≤ n && n ≤ 90 then n + 32 else n

/-- Character codes of a string, lower-cased. -/
def lowerCodes (s : String) : List Nat := s.data.map (fun c => lowerCode c.toNat)

/-- Case-insensitive equality of file names
(entry.name.toLowerCase() === searchName.toLowerCase()). -/
def eqIgnoreCase (a b : String) : Bool := lowerCodes a == lowerCodes b

/-- Models String.prototype.startsWith. -/
def strStarts (s pre : String) : Bool := pre.data.isPrefixOf s.data

/-- Models String.prototype.endsWith. -/
def strEnds (s suff : String) : Bool := suff.data.isSuffixOf s.data

/-- Splits a character list at forward slashes, accumulating the current
segment in reverse. -/
def splitCharAux : List Char → List Char → List String
  | [], cur => [⟨cur.reverse⟩]
  | c :: cs, cur =>
      if c = '/' then ⟨cur.reverse⟩ :: splitCharAux cs [] else splitCharAux cs (c :: cur)

/-- Path segments of a forward-slash path (models p.split at slashes). -/
def splitSlash (p : String) : List String := splitCharAux p.data []

/-- Models path.basename for forward-slash relative paths: the last path
segment. -/
def basename (p : String) : String := (splitSlash p).getLastD p

/-- Models String.prototype.includes for a slash. -/
def hasSlash (s : String) : Bool := s.data.any (fun c => c == '/')

/-- Infix test on lists (used for the substring check of the secondary
download attribution). -/
def listIsInfix : List Nat → List Nat → Bool
  | pat, [] => pat == []
  | pat, c :: rest => pat.isPrefixOf (c :: rest) || listIsInfix pat rest

/-- Models name.toLowerCase().includes(pat) for an already lower-case pat. -/
def includesLower (s pat : String) : Bool := listIsInfix (lowerCodes pat) (lowerCodes s)

/-- Models path.join for two forward-slash segments (the source only joins
well-formed segments, so no normalisation is needed). -/
def pathJoin (a b : String) : String := a ++ "/" ++ b

/-- True when p lies strictly inside directory d (d plus a slash is a prefix
of p).  Used to model recursive removal of a temp directory. -/
def underDir (d p : String) : Bool := (d ++ "/").data.isPrefixOf p.data

/-! ## Filesystem model

The filesystem is an association list from absolute path to file data.  A
JavaScript level write either replaces an existing entry in place or appends
a new one, matching assignment into a plain object keyed by path. -/

/-- Content and permission mode of a file on disk. -/
structure FileData where
  content : String
  mode : Nat
deriving DecidableEq

/-- Association-list filesystem: list of (absolute path, file data). -/
abbrev FS := List (String × FileData)

/-- First-match association-list lookup (models reading a record field). -/
def alookup {α : Type} : List (String × α) → String → Option α
  | [], _ => none
  | e :: l, k => if e.1 = k then some e.2 else alookup l k

/-- Association-list update: replaces the first entry with the given key in
place, or appends a new entry (models record assignment). -/
def aset {α : Type} : List (String × α) → String → α → List (String × α)
  | [], k, v => [(k, v)]
  | e :: l, k, v => if e.1 = k then (k, v) :: l else e :: aset l k v

/-- Deletes a single path (models fs.rm of one file). -/
def removeEntry (fs : FS) (p : String) : FS := fs.filter (fun e => e.1 != p)

/-- Recursive removal of a directory: drops every file strictly under d
(models fs.rm with the recursive option on a temp directory). -/
def cleanupDir (d : String) (fs : FS) : FS := fs.filter (fun e => !underDir d e.1)

/-- Models fs.rename of a single file. -/
def renameFile (fs : FS) (src dst : String) : FS :=
  match alookup fs src with
  | some d => aset (removeEntry fs src) dst d
  | none => fs

/-! ## Directory trees

Extraction produces a directory tree.  The tree type is a mutual inductive
(rather than nesting List) so that every traversal below is structural and
evaluates inside the kernel. -/

mutual
inductive FSTree where
  | file (name content : String) (mode : Nat)
  | dir (name : String) (children : FSTreeList)
inductive FSTreeList where
  | nil
  | cons (t : FSTree) (ts : FSTreeList)
end

/-- Number of nodes in a listing (used to bound the breadth-first search). -/
def sizeTL : FSTreeList → Nat
  | .nil => 0
  | .cons (.file _ _ _) ts => 1 + sizeTL ts
  | .cons (.dir _ cs) ts => 1 + sizeTL cs + sizeTL ts

/-- All files of a tree as (absolute path, data) pairs, with paths rooted at
base.  Models what a successful archive extraction writes under the
extraction directory. -/
def treeFilesMany (base : String) : FSTreeList → List (String × FileData)
  | .nil => []
  | .cons (.file n c m) ts => (pathJoin base n, ⟨c, m⟩) :: treeFilesMany base ts
  | .cons (.dir n cs) ts => treeFilesMany (pathJoin base n) cs ++ treeFilesMany base ts

/-- Writes the files of an extracted tree into the filesystem. -/
def materialize (fs : FS) (base : String) (ts : FSTreeList) : FS :=
  (treeFilesMany base ts).foldl (fun f e => aset f e.1 e.2) fs

/-- First node with the given name in a directory listing. -/
def findNodeByName (seg : String) : FSTreeList → Option FSTree
  | .nil => none
  | .cons t ts =>
      match t with
      | .file n c m => if n = seg then some (.file n c m) else findNodeByName seg ts
      | .dir n cs => if n = seg then some (.dir n cs) else findNodeByName seg ts

/-- Walks a relative path through a tree and returns the node it denotes, if
any.  Models fs.existsSync / fs access checks against the extraction
directory (both files and directories exist). -/
def lookupTree : List String → FSTreeList → Option FSTree
  | [], _ => none
  | [seg], ts => findNodeByName seg ts
  | seg :: rest, ts =>
      match findNodeByName seg ts with
      | some (.dir _ cs) => lookupTree rest cs
      | _ => none

/-! ## Breadth-first binary search

Models findBinaryInDirectory: a queue of directories is processed in order;
the entries of the current directory are scanned in listing order, pushing
subdirectories onto the queue and returning the first file whose name
matches the search name case-insensitively.  The loop terminates because
every step strictly shrinks the total node count of the queue; the model
makes this explicit with a fuel argument that is always sufficient (theorem
findBinaryAux_congr below shows any fuel above the node count gives the same
answer, so the fuel is a termination device and not an approximation). -/

/-- Processes the entries of one directory: returns the first matching file
(as path, content, mode) or, failing that, the subdirectory queue entries in
listing order. -/
def findEntriesStep (cur search : String) :
    FSTreeList → Option (String × String × Nat) × List (String × FSTreeList)
  | .nil => (none, [])
  | .cons (.file n c m) ts =>
      if eqIgnoreCase n search then (some (pathJoin cur n, c, m), [])
      else findEntriesStep cur search ts
  | .cons (.dir n cs) ts =>
      let r := findEntriesStep cur search ts
      (r.1, (pathJoin cur n, cs) :: r.2)

/-- Total node count of a search queue, counting one for the queue entry
itself. -/
def qMeasure : List (String × FSTreeList) → Nat
  | [] => 0
  | (_, es) :: q => (1 + sizeTL es) + qMeasure q

/-- Fuelled breadth-first search loop over a queue of directories. -/
def findBinaryAux (search : String) : Nat → List (String × FSTreeList) → Option (String × String × Nat)
  | 0, _ => none
  | _ + 1, [] => none
  | fuel + 1, (p, entries) :: rest =>
      match findEntriesStep p search entries with
      | (some r, _) => some r
      | (none, ds) => findBinaryAux search fuel (rest ++ ds)

/-- Breadth-first search from the extraction root with sufficient fuel. -/
def bfsSearch (extractPath : String) (tree : FSTreeList) (search : String) :
    Option (String × String × Nat) :=
  findBinaryAux search (qMeasure [(extractPath, tree)] + 1) [(extractPath, tree)]

/-- Models findBinaryInDirectory of the archive pipeline: on Windows hosts
the search name gains an .exe suffix unless it already ends in .exe; the
search is case-insensitive. -/
def findBinaryInDirectory (isWindows : Bool) (extractPath : String) (tree : FSTreeList)
    (binaryName : String) : Option (String × String × Nat) :=
  let searchName :=
    if isWindows then (if strEnds binaryName ".exe" then binaryName else binaryName ++ ".exe")
    else binaryName
  bfsSearch extractPath tree searchName

/-- Models findBinary of the preprocessing script, which searches for the
name exactly as given (still case-insensitively). -/
def findBinary (extractPath : String) (tree : FSTreeList) (binaryName : String) :
    Option (String × String × Nat) :=
  bfsSearch extractPath tree binaryName

/-! ## Config store model

Mirrors the ConfigFile / ConfigBinaryInfo types of types.ts and the
updateConfig function of the downloader (read existing config tolerantly,
merge the entries for the installed kinds, refresh lastUpdated, write). -/

/-- The two binary kinds handled by the installer. -/
inductive BinaryKind where
  | ffmpeg
  | ffprobe
deriving DecidableEq

/-- Persisted per-binary record (types.ts ConfigBinaryInfo). -/
structure ConfigBinaryInfo where
  version : String
  url : String
  relativePath : String
deriving DecidableEq

/-- Per-platform slot of the config file: optional entry per kind. -/
structure PlatformEntry where
  ffmpeg : Option ConfigBinaryInfo
  ffprobe : Option ConfigBinaryInfo
deriving DecidableEq

/-- Persisted config file (types.ts ConfigFile); platforms is a JSON record
keyed by platform identifier. -/
structure ConfigFile where
  platforms : List (String × PlatformEntry)
  lastUpdated : String
deriving DecidableEq

/-- Field access of a platform entry by kind. -/
def PlatformEntry.get (e : PlatformEntry) : BinaryKind → Option ConfigBinaryInfo
  | .ffmpeg => e.ffmpeg
  | .ffprobe => e.ffprobe

/-- Reads the recorded info for one (platform identifier, kind) pair. -/
def getBinary (c : ConfigFile) (id : String) (k : BinaryKind) : Option ConfigBinaryInfo :=
  match alookup c.platforms id with
  | none => none
  | some e => e.get k

/-- Which kinds a run was asked to install (the installOptions argument). -/
structure InstallOptions where
  ffmpeg : Bool
  ffprobe : Bool
deriving DecidableEq

/-- Install options that request exactly one kind. -/
def requestOnly : BinaryKind → InstallOptions
  | .ffmpeg => ⟨true, false⟩
  | .ffprobe => ⟨false, true⟩

/-- The fresh empty config ({ platforms: {}, lastUpdated: now }). -/
def freshConfig (now : String) : ConfigFile := ⟨[], now⟩

/-- Outcome of reading and parsing the config file: the file may be absent,
reading it may throw, its text may fail to parse as JSON, or it parses to a
config value. -/
inductive ConfigReadState where
  | absent
  | readFailure
  | invalid
  | parsed (c : ConfigFile)

/-- Read phase of updateConfig: the parsed config if the file exists, is
readable and parses; otherwise a fresh empty config (the try/catch around
readFile and JSON.parse, and the existsSync else-branch). -/
def readConfigOrFresh (st : ConfigReadState) (now : String) : ConfigFile :=
  match st with
  | .parsed c => c
  | _ => freshConfig now

/-- Merge phase of updateConfig: ensure the platform slot exists, overwrite
the entry of each requested kind, refresh lastUpdated. -/
def updateConfig (config : ConfigFile) (id : String) (ffInfo fpInfo : ConfigBinaryInfo)
    (opts : InstallOptions) (now : String) : ConfigFile :=
  let entry0 := (alookup config.platforms id).getD ⟨none, none⟩
  let entry1 := if opts.ffmpeg then { entry0 with ffmpeg := some ffInfo } else entry0
  let entry2 := if opts.ffprobe then { entry1 with ffprobe := some fpInfo } else entry1
  ⟨aset config.platforms id entry2, now⟩

/-! ## Platform registry

The constants module exists in two revisions.  The archive pipeline
(downloadBinaries below) is paired with the revision whose download sources
have plain string archive paths for both kinds; the preprocessing script and
the path resolver are paired with the revision that has nullable archive
paths and secondary downloads for the macOS platforms. -/

/-- Base directory for binaries.  The source resolves it relative to the
installed package (path.join of the module directory, .. and binaries); the
value is installation dependent and nothing below depends on it. -/
def BINARIES_DIR : String := "/pkg/binaries"

/-- Per-platform subdirectory of the binaries directory. -/
def getPlatformDir (id : String) : String := pathJoin BINARIES_DIR id

/-- Binary file names of one platform (the binaryName field). -/
structure BinaryNames where
  ffmpeg : String
  ffprobe : String
deriving DecidableEq

/-- Name for one kind. -/
def BinaryNames.get (b : BinaryNames) : BinaryKind → String
  | .ffmpeg => b.ffmpeg
  | .ffprobe => b.ffprobe

/-- Entry of the SUPPORTED_PLATFORMS table. -/
structure PlatformInfo where
  platform : String
  arch : String
  identifier : String
  binaryName : BinaryNames
deriving DecidableEq

/-- The SUPPORTED_PLATFORMS table (constants.ts). -/
def SUPPORTED_PLATFORMS : List PlatformInfo := [
  ⟨"win32", "x64", "win32-x64", ⟨"ffmpeg.exe", "ffprobe.exe"⟩⟩,
  ⟨"win32", "ia32", "win32-ia32", ⟨"ffmpeg.exe", "ffprobe.exe"⟩⟩,
  ⟨"darwin", "x64", "darwin-x64", ⟨"ffmpeg", "ffprobe"⟩⟩,
  ⟨"darwin", "arm64", "darwin-arm64", ⟨"ffmpeg", "ffprobe"⟩⟩,
  ⟨"linux", "x64", "linux-x64", ⟨"ffmpeg", "ffprobe"⟩⟩,
  ⟨"linux", "ia32", "linux-ia32", ⟨"ffmpeg", "ffprobe"⟩⟩,
  ⟨"linux", "arm", "linux-arm", ⟨"ffmpeg", "ffprobe"⟩⟩,
  ⟨"linux", "arm64", "linux-arm64", ⟨"ffmpeg", "ffprobe"⟩⟩]

/-- Models getPlatformByIdentifier of paths.ts: linear scan on identifier. -/
def getPlatformByIdentifier (identifier : String) : Option PlatformInfo :=
  SUPPORTED_PLATFORMS.find? (fun p => p.identifier == identifier)

/-- Models getBinaryPath of paths.ts: throws (error value) for an identifier
with no table entry, otherwise joins the binaries directory, the identifier
and the binary name of the platform.  The normalize call of the source is
the identity on these forward-slash paths. -/
def getBinaryPath (platformIdentifier : String) (binary : BinaryKind) : Except String String :=
  match getPlatformByIdentifier platformIdentifier with
  | none => .error ("Unsupported platform/architecture: " ++ platformIdentifier)
  | some platform =>
      .ok (pathJoin (pathJoin BINARIES_DIR platformIdentifier) (platform.binaryName.get binary))

/-- Download source descriptor of the revision used by the archive pipeline
(both archive paths are plain strings). -/
structure DownloadSource where
  url : String
  format : String
  ffmpegPath : String
  ffprobePath : String
  version : String
deriving DecidableEq

/-- The DOWNLOAD_SOURCES table paired with the archive pipeline. -/
def DOWNLOAD_SOURCES : List (String × DownloadSource) := [
  ("win32-x64", ⟨"https://github.com/BtbN/FFmpeg-Builds/releases/download/latest/ffmpeg-master-latest-win64-gpl.zip",
      "zip", "bin/ffmpeg.exe", "bin/ffprobe.exe", "latest"⟩),
  ("win32-ia32", ⟨"https://github.com/BtbN/FFmpeg-Builds/releases/download/latest/ffmpeg-master-latest-win32-gpl.zip",
      "zip", "bin/ffmpeg.exe", "bin/ffprobe.exe", "latest"⟩),
  ("darwin-x64", ⟨"https://evermeet.cx/ffmpeg/getrelease/ffmpeg/zip",
      "zip", "ffmpeg", "ffprobe", "latest"⟩),
  ("darwin-arm64", ⟨"https://evermeet.cx/ffmpeg/getrelease/ffmpeg/zip/arm64",
      "zip", "ffmpeg", "ffprobe", "latest"⟩),
  ("linux-x64", ⟨"https://johnvansickle.com/ffmpeg/releases/ffmpeg-release-amd64-static.tar.xz",
      "tar.xz", "ffmpeg", "ffprobe", "release"⟩),
  ("linux-ia32", ⟨"https://johnvansickle.com/ffmpeg/releases/ffmpeg-release-i686-static.tar.xz",
      "tar.xz", "ffmpeg", "ffprobe", "release"⟩),
  ("linux-arm", ⟨"https://johnvansickle.com/ffmpeg/releases/ffmpeg-release-armhf-static.tar.xz",
      "tar.xz", "ffmpeg", "ffprobe", "release"⟩),
  ("linux-arm64", ⟨"https://johnvansickle.com/ffmpeg/releases/ffmpeg-release-arm64-static.tar.xz",
      "tar.xz", "ffmpeg", "ffprobe", "release"⟩)]

/-- Secondary download descriptor (types.ts SecondaryDownload). -/
structure SecondaryDownload where
  url : String
  format : Option String
  path : String
deriving DecidableEq

/-- Download source descriptor of the constants.ts revision: archive paths
are nullable and macOS platforms carry a secondary download for ffprobe. -/
structure DownloadSourceESM where
  url : String
  format : String
  ffmpegPath : Option String
  ffprobePath : Option String
  version : String
  secondaryDownload : Option SecondaryDownload
deriving DecidableEq

/-- The DOWNLOAD_SOURCES table of constants.ts (used by the preprocessing
script). -/
def DOWNLOAD_SOURCES_ESM : List (String × DownloadSourceESM) := [
  ("win32-x64", ⟨"https://github.com/BtbN/FFmpeg-Builds/releases/download/latest/ffmpeg-master-latest-win64-gpl.zip",
      "zip", some "bin/ffmpeg.exe", some "bin/ffprobe.exe", "latest", none⟩),
  ("win32-ia32", ⟨"https://github.com/GyanD/codexffmpeg/releases/download/6.1.1/ffmpeg-6.1.1-essentials_build.zip",
      "zip", some "bin/ffmpeg.exe", some "bin/ffprobe.exe", "6.1.1", none⟩),
  ("darwin-x64", ⟨"https://evermeet.cx/ffmpeg/ffmpeg-7.0.2.zip",
      "zip", some "ffmpeg", none, "7.0.2",
      some ⟨"https://evermeet.cx/ffmpeg/ffprobe-7.0.2.zip", some "zip", "ffprobe"⟩⟩),
  ("darwin-arm64", ⟨"https://evermeet.cx/ffmpeg/ffmpeg-7.0.2.zip",
      "zip", some "ffmpeg", none, "7.0.2",
      some ⟨"https://evermeet.cx/ffmpeg/ffprobe-7.0.2.zip", some "zip", "ffprobe"⟩⟩),
  ("linux-x64", ⟨"https://johnvansickle.com/ffmpeg/releases/ffmpeg-release-amd64-static.tar.xz",
      "tar.xz", some "ffmpeg", some "ffprobe", "release", none⟩),
  ("linux-ia32", ⟨"https://johnvansickle.com/ffmpeg/releases/ffmpeg-release-i686-static.tar.xz",
      "tar.xz", some "ffmpeg", some "ffprobe", "release", none⟩),
  ("linux-arm", ⟨"https://johnvansickle.com/ffmpeg/releases/ffmpeg-release-armhf-static.tar.xz",
      "tar.xz", some "ffmpeg", some "ffprobe", "release", none⟩),
  ("linux-arm64", ⟨"https://johnvansickle.com/ffmpeg/releases/ffmpeg-release-arm64-static.tar.xz",
      "tar.xz", some "ffmpeg", some "ffprobe", "release", none⟩)]

/-! ## Permission helpers (verify.ts and the preprocessing script) -/

/-- Mode computed by makeExecutable of verify.ts: the previous mode with the
0755 bits added (stats.mode with bitwise or 0o755). -/
def makeExecutableMode (mode : Nat) : Nat := mode ||| 0o755

/-- Models makeExecutable of verify.ts on the filesystem: stats the file
(error if missing) and chmods it to the previous mode with 0755 added. -/
def makeExecutable (fs : FS) (filePath : String) : Except String FS :=
  match alookup fs filePath with
  | none => .error ("Failed to make file executable: " ++ filePath)
  | some d => .ok (aset fs filePath ⟨d.content, makeExecutableMode d.mode⟩)

/-- Mode set by the preprocessing script: it chmods the placed binary to
0o755 outright, independent of its previous mode. -/
def chmod755Mode (_prevMode : Nat) : Nat := 0o755

/-- Filesystem effect of the flat chmod of the preprocessing script (only
invoked on files that exist). -/
def chmod755 (fs : FS) (p : String) : FS :=
  match alookup fs p with
  | some d => aset fs p ⟨d.content, chmod755Mode d.mode⟩
  | none => fs

/-! ## Download model

A fetch outcome is supplied as an oracle: the list of body chunks the stream
delivered and whether the transfer completed (a network error or a non-2xx
response makes the request fail; chunks received before a mid-stream failure
have already been written). -/

/-- Oracle for one HTTP download. -/
structure FetchOutcome where
  chunks : List String
  ok : Bool
  msg : String
deriving DecidableEq

/-- Success or failure with message of one pipeline step. -/
inductive StepResult where
  | ok
  | err (msg : String)
deriving DecidableEq

/-- True on the err constructor. -/
def StepResult.isErr : StepResult → Bool
  | .ok => false
  | .err _ => true

/-- Append of one streamed chunk to the destination file. -/
def writeChunk (destPath : String) (f : FS) (c : String) : FS :=
  match alookup f destPath with
  | some d => aset f destPath ⟨d.content ++ c, d.mode⟩
  | none => aset f destPath ⟨c, 0o644⟩

/-- Full effect of one streamed download on the filesystem: create or
truncate the destination, then append every received chunk. -/
def streamTo (destPath : String) (fetch : FetchOutcome) (fs : FS) : FS :=
  fetch.chunks.foldl (writeChunk destPath) (aset fs destPath ⟨"", 0o644⟩)

/-- Models downloadFile: createWriteStream immediately creates or truncates
the destination; each received chunk is appended; on completion the promise
resolves, otherwise a descriptive error propagates and the partial file
stays on disk.  Returns the step outcome, the filesystem, and the list of
URLs that were requested over the network. -/
def downloadFile (url destPath : String) (fetch : FetchOutcome) (fs : FS) :
    Except String Unit × FS × List String :=
  if fetch.ok then (.ok (), streamTo destPath fetch fs, [url])
  else (.error ("Failed to download from " ++ url ++ ": " ++ fetch.msg),
      streamTo destPath fetch fs, [url])

/-- Exit status of the installer entry point: any error reaching the catch
block triggers process.exit(1), a normal return exits 0. -/
def installExitCode : StepResult → Nat
  | .ok => 0
  | .err _ => 1

/-! ## The archive pipeline (downloadBinaries with registry lookup)

A world bundles the oracles of one run: whether the host is Windows, the
primary fetch outcome, the extraction outcome, and the extracted tree (the
listing of the temp directory after a successful extraction; the downloaded
archive file itself is modelled separately at its own path and never matches
a binary search name for the table sources). -/

/-- Oracles of one archive-pipeline run. -/
structure World where
  isWindows : Bool
  fetch : FetchOutcome
  extract : StepResult
  tree : FSTreeList

/-- Result of one pipeline run: overall outcome, final filesystem, the
config file contents written by updateConfig (none when updateConfig never
ran), and the URLs requested over the network. -/
structure RunOutcome where
  result : StepResult
  fs : FS
  written : Option ConfigFile
  fetched : List String

/-- Error wrapper of the outer catch of downloadBinaries. -/
def installFailMsg (id e : String) : String :=
  "Failed to install binaries for " ++ id ++ ": " ++ e

/-- Extraction dispatch of the archive pipeline: zip and the tar family
extract into the temp directory (materialising the extracted tree on
success), the platform-package formats only log a warning and continue. -/
def extractStep (format tempDir : String) (w : World) (fs : FS) : StepResult × FS :=
  if format = "zip" then
    match w.extract with
    | .ok => (.ok, materialize fs tempDir w.tree)
    | .err m => (.err ("Failed to extract zip file: " ++ m), fs)
  else if format = "tar.xz" ∨ format = "tar.gz" then
    match w.extract with
    | .ok => (.ok, materialize fs tempDir w.tree)
    | .err m => (.err ("Failed to extract tar file: " ++ m), fs)
  else (.ok, fs)

/-- Locate step of the archive pipeline for one kind: if the source declares
an in-archive relative path and that exact path exists in the extraction
tree, it is used directly; otherwise a breadth-first search for the basename
runs; if that also fails the install of this kind fails.  The result carries
the located path and, for a file, its content and mode (a directory hit at
the exact path makes the later copy fail). -/
def locateBinary (isWindows : Bool) (tempDir srcPath kindLabel : String) (tree : FSTreeList) :
    Except String (String × Option (String × Nat)) :=
  let exact : Option (String × Option (String × Nat)) :=
    if srcPath ≠ "" then
      match lookupTree (splitSlash srcPath) tree with
      | some (.file _ c m) => some (pathJoin tempDir srcPath, some (c, m))
      | some (.dir _ _) => some (pathJoin tempDir srcPath, none)
      | none => none
    else none
  match exact with
  | some loc => .ok loc
  | none =>
      match findBinaryInDirectory isWindows tempDir tree (basename srcPath) with
      | some (p, c, m) => .ok (p, some (c, m))
      | none => .error ("Could not find " ++ kindLabel ++ " binary in extracted files")

/-- Processing of one requested kind in the archive pipeline: locate, copy
to the platform directory under the basename of the declared archive path,
and on non-Windows identifiers make the copy executable. -/
def processKind (requested isWindows winId : Bool) (platformDir tempDir srcPath kindLabel : String)
    (tree : FSTreeList) (fs : FS) : StepResult × FS :=
  if requested then
    match locateBinary isWindows tempDir srcPath kindLabel tree with
    | .error e => (.err e, fs)
    | .ok (_, none) => (.err "EISDIR: illegal operation on a directory, copyfile", fs)
    | .ok (_, some (c, m)) =>
        let dest := pathJoin platformDir (basename srcPath)
        let fs1 := aset fs dest ⟨c, m⟩
        if winId then (.ok, fs1)
        else
          match makeExecutable fs1 dest with
          | .error e => (.err e, fs1)
          | .ok fs2 => (.ok, fs2)
  else (.ok, fs)

/-- The archive pipeline (downloadBinaries): registry lookup, temp dir and
download path under the platform directory, download, extraction dispatch
(the raw binary format renames the download into place instead), locate and
copy of each requested kind, config update, and removal of the temp
directory on every exit path. -/
def downloadBinaries (id : String) (opts : InstallOptions) (w : World)
    (fs : FS) (cfgState : ConfigReadState) (now : String) : RunOutcome :=
  match alookup DOWNLOAD_SOURCES id with
  | none => ⟨.err ("No download source available for platform: " ++ id), fs, none, []⟩
  | some src =>
      let platformDir := getPlatformDir id
      let tempDir := pathJoin platformDir "temp_extract"
      let downloadPath := pathJoin tempDir ("download." ++ src.format)
      match downloadFile src.url downloadPath w.fetch fs with
      | (.error e, fs1, ev) => ⟨.err (installFailMsg id e), cleanupDir tempDir fs1, none, ev⟩
      | (.ok _, fs1, ev) =>
        if src.format = "binary" then
          let fs2 :=
            if opts.ffmpeg then
              renameFile fs1 downloadPath (pathJoin platformDir (basename src.ffmpegPath))
            else fs1
          let cfg := updateConfig (readConfigOrFresh cfgState now) id
              ⟨src.version, src.url, src.ffmpegPath⟩ ⟨src.version, src.url, src.ffprobePath⟩ opts now
          ⟨.ok, cleanupDir tempDir fs2, some cfg, ev⟩
        else
          match extractStep src.format tempDir w fs1 with
          | (.err e, fs2) => ⟨.err (installFailMsg id e), cleanupDir tempDir fs2, none, ev⟩
          | (.ok, fs2) =>
            match processKind opts.ffmpeg w.isWindows (strStarts id "win32")
                platformDir tempDir src.ffmpegPath "ffmpeg" w.tree fs2 with
            | (.err e, fs3) => ⟨.err (installFailMsg id e), cleanupDir tempDir fs3, none, ev⟩
            | (.ok, fs3) =>
              match processKind opts.ffprobe w.isWindows (strStarts id "win32")
                  platformDir tempDir src.ffprobePath "ffprobe" w.tree fs3 with
              | (.err e, fs4) => ⟨.err (installFailMsg id e), cleanupDir tempDir fs4, none, ev⟩
              | (.ok, fs4) =>
                let cfg := updateConfig (readConfigOrFresh cfgState now) id
                    ⟨src.version, src.url, src.ffmpegPath⟩ ⟨src.version, src.url, src.ffprobePath⟩
                    opts now
                ⟨.ok, cleanupDir tempDir fs4, some cfg, ev⟩

/-! ## The GitHub-release pipeline (downloader.ts)

This revision has no registry check: for any identifier it derives one URL
per requested kind and streams each download directly to the final binary
path in the platform directory, then chmods it and updates the config. -/

/-- Release tag constant of downloader.ts. -/
def GITHUB_RELEASE_TAG : String := "v1.0.0"

/-- Models getGitHubReleaseUrl. -/
def getGitHubReleaseUrl (platformIdentifier binaryName : String) : String :=
  "https://github.com/w3vish/ffmpeg-installer/releases/download/" ++ GITHUB_RELEASE_TAG ++ "/" ++
    platformIdentifier ++ "-" ++ binaryName

/-- One kind of the release pipeline: download straight to the final path,
then make it executable on non-Windows identifiers. -/
def releaseKindStep (requested isWindows : Bool) (id platformDir name : String)
    (fetch : FetchOutcome) (fs : FS) : StepResult × FS × List String :=
  if requested then
    let url := getGitHubReleaseUrl id name
    let dest := pathJoin platformDir name
    match downloadFile url dest fetch fs with
    | (.error e, fs1, ev) => (.err e, fs1, ev)
    | (.ok _, fs1, ev) =>
      if isWindows then (.ok, fs1, ev)
      else
        match makeExecutable fs1 dest with
        | .error e => (.err e, fs1, ev)
        | .ok fs2 => (.ok, fs2, ev)
  else (.ok, fs, [])

/-- The release pipeline (downloadBinaries of downloader.ts). -/
def downloadBinariesRelease (id : String) (opts : InstallOptions) (wFF wFP : FetchOutcome)
    (fs : FS) (cfgState : ConfigReadState) (now : String) : RunOutcome :=
  let platformDir := getPlatformDir id
  let isWindows := strStarts id "win32"
  let ffmpegName := if isWindows then "ffmpeg.exe" else "ffmpeg"
  let ffprobeName := if isWindows then "ffprobe.exe" else "ffprobe"
  match releaseKindStep opts.ffmpeg isWindows id platformDir ffmpegName wFF fs with
  | (.err e, fs1, ev1) => ⟨.err (installFailMsg id e), fs1, none, ev1⟩
  | (.ok, fs1, ev1) =>
    match releaseKindStep opts.ffprobe isWindows id platformDir ffprobeName wFP fs1 with
    | (.err e, fs2, ev2) => ⟨.err (installFailMsg id e), fs2, none, ev1 ++ ev2⟩
    | (.ok, fs2, ev2) =>
      let cfg := updateConfig (readConfigOrFresh cfgState now) id
          ⟨GITHUB_RELEASE_TAG, getGitHubReleaseUrl id ffmpegName, ffmpegName⟩
          ⟨GITHUB_RELEASE_TAG, getGitHubReleaseUrl id ffprobeName, ffprobeName⟩ opts now
      ⟨.ok, fs2, some cfg, ev1 ++ ev2⟩

/-! ## The preprocessing script (processPlatform)

This script downloads and extracts each source into a shared temp directory,
locates both binaries, runs the optional secondary download inside a
try/catch whose failure only logs, copies whatever was located into the
output directory, and flat-chmods the copies to 0o755 on non-Windows
platforms. -/

/-- Located binary: path plus content and mode when the located node is a
file (a directory hit carries no payload and makes the copy fail). -/
abbrev Located := String × Option (String × Nat)

/-- Oracles of one preprocessing run: primary fetch and extraction with the
resulting tree, and secondary fetch and extraction with the temp directory
listing after the secondary extraction. -/
structure WorldP6 where
  fetchPrimary : FetchOutcome
  extractPrimary : StepResult
  primaryTree : FSTreeList
  fetchSecondary : FetchOutcome
  extractSecondary : StepResult
  secondaryTree : FSTreeList

/-- Extraction dispatch of the preprocessing script: zip and the tar family
are supported, anything else throws an unsupported-format error. -/
def extractArchiveP6 (format : String) (res : StepResult) : StepResult :=
  if format = "zip" then res
  else if format = "tar.xz" ∨ format = "tar.gz" then
    match res with
    | .ok => .ok
    | .err m => .err ("Extraction failed: " ++ m)
  else .err ("Unsupported archive format: " ++ format)

/-- Locate step of the preprocessing script for one kind: nothing happens
for a null archive path; an exact check runs only when the declared path
contains a slash; otherwise (or on a miss) the breadth-first search runs.
An exhausted search leaves the kind unlocated without error. -/
def locateP6 (tempDir : String) (srcPath : Option String) (tree : FSTreeList) : Option Located :=
  match srcPath with
  | none => none
  | some sp =>
      let exact : Option Located :=
        if hasSlash sp then
          match lookupTree (splitSlash sp) tree with
          | some (.file _ c m) => some (pathJoin tempDir sp, some (c, m))
          | some (.dir _ _) => some (pathJoin tempDir sp, none)
          | none => none
        else none
      match exact with
      | some loc => some loc
      | none =>
          match findBinary tempDir tree (basename sp) with
          | some (p, c, m) => some (p, some (c, m))
          | none => none

/-- Secondary download block of the preprocessing script: download and
extract the secondary archive and search for the basename of its declared
path; the located file replaces the ffprobe or ffmpeg location according to
a case-insensitive substring check of its name.  Any failure inside the
block is caught and logged, leaving the locations unchanged. -/
def secondaryStep (src : DownloadSourceESM) (w : WorldP6) (tempDir : String) (fs : FS)
    (ffLoc fpLoc : Option Located) : FS × Option Located × Option Located × List String :=
  match src.secondaryDownload with
  | none => (fs, ffLoc, fpLoc, [])
  | some sd =>
      let fmt := sd.format.getD src.format
      let secondaryPath := pathJoin tempDir ("secondary." ++ fmt)
      match downloadFile sd.url secondaryPath w.fetchSecondary fs with
      | (.error _, fs1, ev) => (fs1, ffLoc, fpLoc, ev)
      | (.ok _, fs1, ev) =>
        match extractArchiveP6 fmt w.extractSecondary with
        | .err _ => (fs1, ffLoc, fpLoc, ev)
        | .ok =>
          let fs2 := materialize fs1 tempDir w.secondaryTree
          let binaryName := basename sd.path
          match findBinary tempDir w.secondaryTree binaryName with
          | none => (fs2, ffLoc, fpLoc, ev)
          | some (p, c, m) =>
              if includesLower binaryName "ffprobe" then (fs2, ffLoc, some (p, some (c, m)), ev)
              else if includesLower binaryName "ffmpeg" then (fs2, some (p, some (c, m)), fpLoc, ev)
              else (fs2, ffLoc, fpLoc, ev)

/-- Copy of a located binary into the output directory; an unlocated kind
only logs an error and continues. -/
def copyIfLocated (loc : Option Located) (outPath : String) (fs : FS) : StepResult × FS :=
  match loc with
  | none => (.ok, fs)
  | some (_, none) => (.err "EISDIR: illegal operation on a directory, copyfile", fs)
  | some (_, some (c, m)) => (.ok, aset fs outPath ⟨c, m⟩)

/-- Models processPlatform of the preprocessing script. -/
def processPlatform (platformId : String) (src : DownloadSourceESM) (w : WorldP6) (fs : FS) :
    StepResult × FS × List String :=
  match SUPPORTED_PLATFORMS.find? (fun p => p.identifier == platformId) with
  | none => (.err ("Platform " ++ platformId ++ " not found in supported platforms"), fs, [])
  | some platform =>
      let tempDir := pathJoin (pathJoin BINARIES_DIR "temp") platformId
      let outputDir := pathJoin BINARIES_DIR platformId
      let downloadPath := pathJoin tempDir ("download." ++ src.format)
      match downloadFile src.url downloadPath w.fetchPrimary fs with
      | (.error e, fs1, ev) => (.err e, fs1, ev)
      | (.ok _, fs1, ev) =>
        match extractArchiveP6 src.format w.extractPrimary with
        | .err e => (.err e, fs1, ev)
        | .ok =>
          let fs2 := materialize fs1 tempDir w.primaryTree
          let ffLoc := locateP6 tempDir src.ffmpegPath w.primaryTree
          let fpLoc := locateP6 tempDir src.ffprobePath w.primaryTree
          match secondaryStep src w tempDir fs2 ffLoc fpLoc with
          | (fs3, ffLoc2, fpLoc2, ev2) =>
            match copyIfLocated ffLoc2 (pathJoin outputDir platform.binaryName.ffmpeg) fs3 with
            | (.err e, fs4) => (.err e, fs4, ev ++ ev2)
            | (.ok, fs4) =>
              match copyIfLocated fpLoc2 (pathJoin outputDir platform.binaryName.ffprobe) fs4 with
              | (.err e, fs5) => (.err e, fs5, ev ++ ev2)
              | (.ok, fs5) =>
                let fs6 :=
                  if strStarts platformId "win32" then fs5
                  else
                    let fsA :=
                      if ffLoc2.isSome then chmod755 fs5 (pathJoin outputDir platform.binaryName.ffmpeg)
                      else fs5
                    if fpLoc2.isSome then chmod755 fsA (pathJoin outputDir platform.binaryName.ffprobe)
                    else fsA
                (.ok, fs6, ev ++ ev2)

/-- Which kinds an options record requests. -/
def InstallOptions.forKind (o : InstallOptions) : BinaryKind → Bool
  | .ffmpeg => o.ffmpeg
  | .ffprobe => o.ffprobe

/-- Info that updateConfig writes for a kind, given the two candidate infos. -/
def kindInfo (ffInfo fpInfo : ConfigBinaryInfo) : BinaryKind → ConfigBinaryInfo
  | .ffmpeg => ffInfo
  | .ffprobe => fpInfo

/-! ## Example objects used by the claim witnesses -/

/-- Payload of a located tree node: content and mode for a file, nothing for
a directory. -/
def nodePayload : FSTree → Option (String × Nat)
  | .file _ c m => some (c, m)
  | .dir _ _ => none

/-- World of a successful linux-x64 archive run: the tar archive extracts to
ffmpeg and ffprobe at the root. -/
def exWorldLinux : World :=
  ⟨false, ⟨["FFBIN"], true, ""⟩, .ok,
    .cons (.file "ffmpeg" "FFBIN" 0o644) (.cons (.file "ffprobe" "FPBIN" 0o644) .nil)⟩

/-- The linux-x64 entry of the download-source table. -/
def srcLinuxX64 : DownloadSource :=
  ⟨"https://johnvansickle.com/ffmpeg/releases/ffmpeg-release-amd64-static.tar.xz",
    "tar.xz", "ffmpeg", "ffprobe", "release"⟩

/-- The config value written by the successful linux-x64 ffmpeg-only run. -/
def cfgLinuxFF : ConfigFile :=
  updateConfig (readConfigOrFresh ConfigReadState.absent "t") "linux-x64"
    ⟨srcLinuxX64.version, srcLinuxX64.url, srcLinuxX64.ffmpegPath⟩
    ⟨srcLinuxX64.version, srcLinuxX64.url, srcLinuxX64.ffprobePath⟩ ⟨true, false⟩ "t"

/-- World of a run whose fetch fails after one streamed chunk. -/
def exWorldFail : World := ⟨false, ⟨["PART"], false, "socket hang up"⟩, .ok, .nil⟩

/-- Pre-existing config with a win32-x64 ffprobe entry. -/
def exCfg : ConfigFile := ⟨[("win32-x64", ⟨none, some ⟨"v1", "u1", "ffprobe.exe"⟩⟩)], "t0"⟩

/-- A fresh ConfigBinaryInfo to upsert. -/
def exInfo : ConfigBinaryInfo := ⟨"release", "u2", "ffmpeg"⟩

/-- Extraction tree with a case-differing nested match for ffmpeg.exe. -/
def exCaseTree : FSTreeList :=
  .cons (.dir "doc" (.cons (.file "readme.txt" "r" 0o644) .nil))
    (.cons (.dir "sub" (.cons (.file "FFmpeg.exe" "MZBIN" 0o644) .nil)) .nil)

/-- Extraction tree that carries ffmpeg at exactly the declared path. -/
def exExactTree : FSTreeList := .cons (.file "ffmpeg" "XX" 0o700) .nil

/-- The darwin-x64 entry of the constants.ts download-source table. -/
def srcDarwinX64 : DownloadSourceESM :=
  ⟨"https://evermeet.cx/ffmpeg/ffmpeg-7.0.2.zip", "zip", some "ffmpeg", none, "7.0.2",
    some ⟨"https://evermeet.cx/ffmpeg/ffprobe-7.0.2.zip", some "zip", "ffprobe"⟩⟩

/-- World of a darwin-x64 preprocessing run whose primary download succeeds
and whose secondary download times out. -/
def exWorldDarwin : WorldP6 :=
  ⟨⟨["FF"], true, ""⟩, .ok, .cons (.file "ffmpeg" "FF" 0o644) .nil,
    ⟨[], false, "timeout"⟩, .ok, .nil⟩

/-- World of a successful win32-x64 archive run: the zip extracts to a bin
directory holding both executables. -/
def exWorldWin : World :=
  ⟨true, ⟨["ZIP"], true, ""⟩, .ok,
    .cons (.dir "bin" (.cons (.file "ffmpeg.exe" "MZFF" 0o644)
      (.cons (.file "ffprobe.exe" "MZFP" 0o644) .nil))) .nil⟩

/-- FFmpeg config entry written by the win32-x64 archive run. -/
def infoWinFF : ConfigBinaryInfo :=
  ⟨"latest",
    "https://github.com/BtbN/FFmpeg-Builds/releases/download/latest/ffmpeg-master-latest-win64-gpl.zip",
    "bin/ffmpeg.exe"⟩

/-- FFprobe config entry written by the win32-x64 archive run. -/
def infoWinFP : ConfigBinaryInfo :=
  ⟨"latest",
    "https://github.com/BtbN/FFmpeg-Builds/releases/download/latest/ffmpeg-master-latest-win64-gpl.zip",
    "bin/ffprobe.exe"⟩

/-- Config file written by the win32-x64 archive run on a fresh config. -/
def cfgWin : ConfigFile := ⟨[("win32-x64", ⟨some infoWinFF, some infoWinFP⟩)], "t"⟩

/-! ## Association list lemmas -/

theorem alookup_aset_self {α : Type} (l : List (String × α)) (k : String) (v : α) :
    alookup (aset l k v) k = some v := by
  induction l with
  | nil => simp [aset, alookup]
  | cons e l ih =>
      by_cases h : e.1 = k
      · simp [aset, h, alookup]
      · simp [aset, h, alookup, ih]

theorem alookup_aset_ne {α : Type} (l : List (String × α)) (k k2 : String) (v : α)
    (h : k2 ≠ k) : alookup (aset l k v) k2 = alookup l k2 := by
  have h2 : ¬k = k2 := fun hh => h hh.symm
  induction l with
  | nil => simp [aset, alookup, h2]
  | cons e l ih =>
      by_cases he : e.1 = k
      · simp only [aset, if_pos he, alookup, he, if_neg h2]
      · simp only [aset, if_neg he, alookup, ih]

theorem alookup_filter_keep {α : Type} (l : List (String × α)) (q : String × α → Bool)
    (p : String) (h : ∀ e : String × α, e.1 = p → q e = true) :
    alookup (l.filter q) p = alookup l p := by
  induction l with
  | nil => rfl
  | cons e l ih =>
      by_cases he : e.1 = p
      · rw [List.filter_cons, h e he]
        simp [alookup, he, ih]
      · cases hq : q e
        · simp [List.filter_cons, hq, alookup, he, ih]
        · simp [List.filter_cons, hq, alookup, he, ih]

theorem alookup_filter_drop {α : Type} (l : List (String × α)) (q : String × α → Bool)
    (p : String) (h : ∀ e : String × α, e.1 = p → q e = false) :
    alookup (l.filter q) p = none := by
  induction l with
  | nil => rfl
  | cons e l ih =>
      by_cases he : e.1 = p
      · rw [List.filter_cons, h e he]
        simpa using ih
      · cases hq : q e
        · simpa [List.filter_cons, hq] using ih
        · simp [List.filter_cons, hq, alookup, he, ih]

theorem alookup_cleanup_keep (d : String) (fs : FS) (p : String) (h : underDir d p = false) :
    alookup (cleanupDir d fs) p = alookup fs p := by
  refine alookup_filter_keep fs _ p ?_
  intro e he
  rw [he, h]
  rfl

theorem alookup_cleanup_drop (d : String) (fs : FS) (p : String) (h : underDir d p = true) :
    alookup (cleanupDir d fs) p = none := by
  refine alookup_filter_drop fs _ p ?_
  intro e he
  rw [he, h]
  rfl

/-! ## Path lemmas -/

theorem underDir_pathJoin (d x : String) : underDir d (pathJoin d x) = true := by
  have h : (d ++ "/").data <+: (pathJoin d x).data := by
    rw [pathJoin, String.data_append]
    exact List.prefix_append _ _
  simpa [underDir, List.isPrefixOf_iff_prefix] using h

theorem underDir_of_pathJoin_under (base n p : String)
    (h : underDir (pathJoin base n) p = true) : underDir base p = true := by
  simp only [underDir, List.isPrefixOf_iff_prefix] at h ⊢
  refine List.IsPrefix.trans ?_ h
  rw [pathJoin, String.data_append, String.data_append, String.data_append, List.append_assoc]
  exact List.prefix_append _ _

theorem treeFiles_under (base : String) (ts : FSTreeList) :
    ∀ e ∈ treeFilesMany base ts, underDir base e.1 = true := by
  induction ts using sizeTL.induct generalizing base with
  | case1 => intro e he; cases he
  | case2 n c m ts ih =>
      intro e he
      rw [treeFilesMany] at he
      rcases List.mem_cons.mp he with h1 | h2
      · rw [h1]
        exact underDir_pathJoin base n
      · exact ih base e h2
  | case3 n cs ts ihcs ihts =>
      intro e he
      rw [treeFilesMany] at he
      rcases List.mem_append.mp he with h1 | h2
      · exact underDir_of_pathJoin_under base n e.1 (ihcs (pathJoin base n) e h1)
      · exact ihts base e h2

theorem alookup_foldl_aset_ne (p : String) (l : List (String × FileData)) :
    ∀ fs : FS, (∀ e ∈ l, e.1 ≠ p) →
      alookup (l.foldl (fun f e => aset f e.1 e.2) fs) p = alookup fs p := by
  induction l with
  | nil => intro fs _; rfl
  | cons e l ih =>
      intro fs h
      rw [List.foldl_cons, ih _ (fun x hx => h x (List.mem_cons_of_mem _ hx))]
      exact alookup_aset_ne _ _ _ _ (Ne.symm (h e (List.mem_cons_self _ _)))

theorem alookup_materialize_ne (fs : FS) (base p : String) (ts : FSTreeList)
    (h : underDir base p = false) :
    alookup (materialize fs base ts) p = alookup fs p := by
  refine alookup_foldl_aset_ne p _ fs ?_
  intro e he heq
  have hu := treeFiles_under base ts e he
  rw [heq, h] at hu
  cases hu

/-! ## Download model lemmas -/

theorem alookup_writeChunk_ne (dest p c : String) (f : FS) (h : p ≠ dest) :
    alookup (writeChunk dest f c) p = alookup f p := by
  unfold writeChunk
  cases h2 : alookup f dest
  · simpa using alookup_aset_ne f dest p _ h
  · simpa using alookup_aset_ne f dest p _ h

theorem alookup_streamTo_ne (dest p : String) (o : FetchOutcome) (fs : FS) (h : p ≠ dest) :
    alookup (streamTo dest o fs) p = alookup fs p := by
  unfold streamTo
  have haux : ∀ (chunks : List String) (f : FS),
      alookup (chunks.foldl (writeChunk dest) f) p = alookup f p := by
    intro chunks
    induction chunks with
    | nil => intro f; rfl
    | cons c cs ih =>
        intro f
        rw [List.foldl_cons, ih, alookup_writeChunk_ne dest p c f h]
  rw [haux, alookup_aset_ne fs dest p _ h]

theorem downloadFile_fs (url dest : String) (o : FetchOutcome) (fs : FS) :
    (downloadFile url dest o fs).2.1 = streamTo dest o fs := by
  unfold downloadFile
  split <;> rfl

theorem downloadFile_fail (url dest : String) (o : FetchOutcome) (fs : FS)
    (h : o.ok = false) :
    downloadFile url dest o fs =
      (.error ("Failed to download from " ++ url ++ ": " ++ o.msg), streamTo dest o fs, [url]) := by
  unfold downloadFile
  rw [h]
  rfl

theorem downloadFile_succeed (url dest : String) (o : FetchOutcome) (fs : FS)
    (h : o.ok = true) :
    downloadFile url dest o fs = (.ok (), streamTo dest o fs, [url]) := by
  unfold downloadFile
  rw [h]
  rfl

/-! ## Breadth-first search measure lemmas

These justify the fuel given to the search loop: every loop step strictly
decreases the queue measure, so any fuel above the initial measure computes
the limit of the loop and the particular fuel choice is irrelevant. -/

theorem qMeasure_append (a b : List (String × FSTreeList)) :
    qMeasure (a ++ b) = qMeasure a + qMeasure b := by
  induction a with
  | nil => simp [qMeasure]
  | cons e a ih =>
      obtain ⟨p, es⟩ := e
      simp [qMeasure, ih]
      omega

theorem findEntriesStep_measure (cur search : String) (es : FSTreeList) :
    qMeasure (findEntriesStep cur search es).2 ≤ sizeTL es := by
  induction es using sizeTL.induct with
  | case1 => simp [findEntriesStep, qMeasure, sizeTL]
  | case2 n c m ts ih =>
      by_cases h : eqIgnoreCase n search
      · simp [findEntriesStep, h, qMeasure, sizeTL]
      · simp only [findEntriesStep, if_neg h, sizeTL]
        omega
  | case3 n cs ts ihcs ihts =>
      simp only [findEntriesStep, qMeasure, sizeTL]
      omega

theorem findBinaryAux_congr (search : String) :
    ∀ (f1 : Nat) (q : List (String × FSTreeList)) (f2 : Nat),
      qMeasure q < f1 → qMeasure q < f2 →
      findBinaryAux search f1 q = findBinaryAux search f2 q := by
  intro f1
  induction f1 with
  | zero => intro q f2 h1 _; omega
  | succ n ih =>
      intro q f2 h1 h2
      cases q with
      | nil =>
          cases f2 with
          | zero => omega
          | succ m => rfl
      | cons e rest =>
          obtain ⟨p, es⟩ := e
          cases f2 with
          | zero => omega
          | succ m =>
              rcases hstep : findEntriesStep p search es with ⟨o, ds⟩
              cases o with
              | some r => simp [findBinaryAux, hstep]
              | none =>
                  have hm0 := findEntriesStep_measure p search es
                  rw [hstep] at hm0
                  have hm : qMeasure ds ≤ sizeTL es := hm0
                  have hq : qMeasure ((p, es) :: rest) = 1 + sizeTL es + qMeasure rest := by
                    simp [qMeasure]
                  have hnew : qMeasure (rest ++ ds) = qMeasure rest + qMeasure ds :=
                    qMeasure_append rest ds
                  simp only [findBinaryAux, hstep]
                  apply ih
                  · omega
                  · omega

/-! ## Permission bit lemmas -/

theorem testBit_lor_left (m k i : Nat) (h : m.testBit i = true) :
    (m ||| k).testBit i = true := by
  rw [Nat.testBit_lor, h, Bool.true_or]

theorem testBit_0o755_of_0o111 (i : Nat) (h : Nat.testBit 0o111 i = true) :
    Nat.testBit 0o755 i = true := by
  have hb : i < 7 := by
    by_contra hge
    have hlt : (0o111 : Nat) < 2 ^ i := by
      calc (0o111 : Nat) < 2 ^ 7 := by norm_num
      _ ≤ 2 ^ i := Nat.pow_le_pow_right (by norm_num) (by omega)
    rw [Nat.testBit_lt_two_pow hlt] at h
    cases h
  interval_cases i <;> revert h <;> decide

/-- The mode written by makeExecutable has all three execute bits set. -/
theorem makeExecutableMode_exec (m i : Nat) (h : Nat.testBit 0o111 i = true) :
    Nat.testBit (makeExecutableMode m) i = true := by
  rw [makeExecutableMode, Nat.testBit_lor, testBit_0o755_of_0o111 i h, Bool.or_true]

/-- The mode written by makeExecutable keeps every previously set bit. -/
theorem makeExecutableMode_keeps (m i : Nat) (h : Nat.testBit m i = true) :
    Nat.testBit (makeExecutableMode m) i = true :=
  testBit_lor_left m 0o755 i h

/-! ## Config store lemmas -/


theorem getBinary_updateConfig_same_id (c : ConfigFile) (id : String)
    (ffInfo fpInfo : ConfigBinaryInfo) (opts : InstallOptions) (now : String) (k : BinaryKind) :
    getBinary (updateConfig c id ffInfo fpInfo opts now) id k =
      (if opts.forKind k then some (kindInfo ffInfo fpInfo k) else getBinary c id k) := by
  unfold updateConfig getBinary
  rw [alookup_aset_self]
  cases k with
  | ffmpeg =>
      cases hff : opts.ffmpeg <;> cases hfp : opts.ffprobe <;>
        cases halo : alookup c.platforms id <;>
          simp [InstallOptions.forKind, kindInfo, PlatformEntry.get, hff, hfp, halo]
  | ffprobe =>
      cases hff : opts.ffmpeg <;> cases hfp : opts.ffprobe <;>
        cases halo : alookup c.platforms id <;>
          simp [InstallOptions.forKind, kindInfo, PlatformEntry.get, hff, hfp, halo]

theorem getBinary_updateConfig_other_id (c : ConfigFile) (id id2 : String)
    (ffInfo fpInfo : ConfigBinaryInfo) (opts : InstallOptions) (now : String) (k : BinaryKind)
    (h : id2 ≠ id) :
    getBinary (updateConfig c id ffInfo fpInfo opts now) id2 k = getBinary c id2 k := by
  unfold updateConfig getBinary
  rw [alookup_aset_ne _ _ _ _ h]

/-! ## Archive pipeline step lemmas -/

theorem processKind_not_requested (isWindows winId : Bool)
    (platformDir tempDir srcPath kindLabel : String) (tree : FSTreeList) (fs : FS) :
    processKind false isWindows winId platformDir tempDir srcPath kindLabel tree fs = (.ok, fs) :=
  rfl

theorem processKind_fs_ne (requested isWindows winId : Bool)
    (platformDir tempDir srcPath kindLabel : String) (tree : FSTreeList) (fs : FS) (p : String)
    (h : p ≠ pathJoin platformDir (basename srcPath)) :
    alookup (processKind requested isWindows winId platformDir tempDir srcPath kindLabel tree fs).2 p =
      alookup fs p := by
  have h1 : ∀ (l : FS) (v : FileData),
      alookup (aset l (pathJoin platformDir (basename srcPath)) v) p = alookup l p :=
    fun l v => alookup_aset_ne l _ p v h
  cases requested with
  | false => rfl
  | true =>
      cases hloc : locateBinary isWindows tempDir srcPath kindLabel tree with
      | error e => simp [processKind, hloc]
      | ok loc =>
          obtain ⟨q, payload⟩ := loc
          cases payload with
          | none => simp [processKind, hloc]
          | some cm =>
              obtain ⟨c, m⟩ := cm
              have hME : makeExecutable
                  (aset fs (pathJoin platformDir (basename srcPath)) ⟨c, m⟩)
                  (pathJoin platformDir (basename srcPath)) =
                  .ok (aset (aset fs (pathJoin platformDir (basename srcPath)) ⟨c, m⟩)
                    (pathJoin platformDir (basename srcPath)) ⟨c, makeExecutableMode m⟩) := by
                unfold makeExecutable
                rw [alookup_aset_self]
              cases winId with
              | false => simp [processKind, hloc, hME, h1]
              | true => simp [processKind, hloc, h1]

theorem processKind_ok_places (isWindows winId : Bool)
    (platformDir tempDir srcPath kindLabel : String) (tree : FSTreeList) (fs : FS)
    (hok : (processKind true isWindows winId platformDir tempDir srcPath kindLabel tree fs).1 = .ok) :
    ∃ c m, alookup (processKind true isWindows winId platformDir tempDir srcPath kindLabel tree fs).2
        (pathJoin platformDir (basename srcPath)) = some ⟨c, m⟩ ∧
      (winId = false → ∀ i, Nat.testBit 0o111 i = true → Nat.testBit m i = true) := by
  cases hloc : locateBinary isWindows tempDir srcPath kindLabel tree with
  | error e => rw [processKind] at hok; simp [hloc] at hok
  | ok loc =>
      obtain ⟨q, payload⟩ := loc
      cases payload with
      | none => rw [processKind] at hok; simp [hloc] at hok
      | some cm =>
          obtain ⟨c, m⟩ := cm
          have hME : makeExecutable
              (aset fs (pathJoin platformDir (basename srcPath)) ⟨c, m⟩)
              (pathJoin platformDir (basename srcPath)) =
              .ok (aset (aset fs (pathJoin platformDir (basename srcPath)) ⟨c, m⟩)
                (pathJoin platformDir (basename srcPath)) ⟨c, makeExecutableMode m⟩) := by
            unfold makeExecutable
            rw [alookup_aset_self]
          cases winId with
          | false =>
              refine ⟨c, makeExecutableMode m, ?_, ?_⟩
              · simp [processKind, hloc, hME, alookup_aset_self]
              · intro _ i hi
                exact makeExecutableMode_exec m i hi
          | true =>
              refine ⟨c, m, ?_, ?_⟩
              · simp [processKind, hloc, alookup_aset_self]
              · intro hfalse
                cases hfalse

theorem alookup_mem {α : Type} : ∀ (l : List (String × α)) (k : String) (v : α),
    alookup l k = some v → (k, v) ∈ l := by
  intro l
  induction l with
  | nil => intro k v h; cases h
  | cons e l ih =>
      intro k v h
      rw [alookup] at h
      by_cases he : e.1 = k
      · rw [if_pos he] at h
        have hv : e.2 = v := by cases h; rfl
        have he2 : e = (k, v) := by
          obtain ⟨a, b⟩ := e
          simp only at he hv
          rw [he, hv]
        rw [he2]
        exact List.mem_cons_self _ _
      · rw [if_neg he] at h
        exact List.mem_cons_of_mem _ (ih k v h)

/-- Core invariant of the archive pipeline, for a registered source whose
format is not the raw-binary one and whose destination paths lie outside the
temp directory (all table sources satisfy these side conditions): an
erroring run writes no config, and a run that writes a config succeeded,
placed every requested kind at its destination with the execute bits set on
non-Windows identifiers, and left the config entries of the kinds that were
not requested unchanged. -/
theorem archivePipeline_invariant (id : String) (src : DownloadSource) (opts : InstallOptions)
    (w : World) (fs : FS) (cfgState : ConfigReadState) (now : String)
    (hlook : alookup DOWNLOAD_SOURCES id = some src)
    (hfmt : ¬src.format = "binary")
    (hffU : underDir (pathJoin (getPlatformDir id) "temp_extract")
        (pathJoin (getPlatformDir id) (basename src.ffmpegPath)) = false)
    (hfpU : underDir (pathJoin (getPlatformDir id) "temp_extract")
        (pathJoin (getPlatformDir id) (basename src.ffprobePath)) = false)
    (hneq : pathJoin (getPlatformDir id) (basename src.ffmpegPath) ≠
        pathJoin (getPlatformDir id) (basename src.ffprobePath)) :
    ((downloadBinaries id opts w fs cfgState now).result.isErr = true →
        (downloadBinaries id opts w fs cfgState now).written = none) ∧
    (∀ c2, (downloadBinaries id opts w fs cfgState now).written = some c2 →
        (downloadBinaries id opts w fs cfgState now).result = .ok ∧
        (opts.ffmpeg = true → ∃ fd,
            alookup (downloadBinaries id opts w fs cfgState now).fs
                (pathJoin (getPlatformDir id) (basename src.ffmpegPath)) = some fd ∧
            (strStarts id "win32" = false →
                ∀ i, Nat.testBit 0o111 i = true → Nat.testBit fd.mode i = true)) ∧
        (opts.ffprobe = true → ∃ fd,
            alookup (downloadBinaries id opts w fs cfgState now).fs
                (pathJoin (getPlatformDir id) (basename src.ffprobePath)) = some fd ∧
            (strStarts id "win32" = false →
                ∀ i, Nat.testBit 0o111 i = true → Nat.testBit fd.mode i = true)) ∧
        (opts.ffmpeg = false → getBinary c2 id BinaryKind.ffmpeg =
            getBinary (readConfigOrFresh cfgState now) id BinaryKind.ffmpeg) ∧
        (opts.ffprobe = false → getBinary c2 id BinaryKind.ffprobe =
            getBinary (readConfigOrFresh cfgState now) id BinaryKind.ffprobe)) := by
  rcases hdl : downloadFile src.url
      (pathJoin (pathJoin (getPlatformDir id) "temp_extract") ("download." ++ src.format))
      w.fetch fs with ⟨r, fs1, ev⟩
  cases r with
  | error e =>
      have hrun : downloadBinaries id opts w fs cfgState now =
          ⟨.err (installFailMsg id e),
            cleanupDir (pathJoin (getPlatformDir id) "temp_extract") fs1, none, ev⟩ := by
        simp only [downloadBinaries, hlook, hdl]
      rw [hrun]
      refine ⟨fun _ => rfl, ?_⟩
      intro c2 hc2
      cases hc2
  | ok u =>
      obtain ⟨⟩ := u
      rcases hex : extractStep src.format (pathJoin (getPlatformDir id) "temp_extract") w fs1
        with ⟨er, fs2⟩
      cases er with
      | err e =>
          have hrun : downloadBinaries id opts w fs cfgState now =
              ⟨.err (installFailMsg id e),
                cleanupDir (pathJoin (getPlatformDir id) "temp_extract") fs2, none, ev⟩ := by
            simp only [downloadBinaries, hlook, hdl, if_neg hfmt, hex]
          rw [hrun]
          refine ⟨fun _ => rfl, ?_⟩
          intro c2 hc2
          cases hc2
      | ok =>
          rcases hpf : processKind opts.ffmpeg w.isWindows (strStarts id "win32")
              (getPlatformDir id) (pathJoin (getPlatformDir id) "temp_extract")
              src.ffmpegPath "ffmpeg" w.tree fs2 with ⟨rFF, fs3⟩
          cases rFF with
          | err e =>
              have hrun : downloadBinaries id opts w fs cfgState now =
                  ⟨.err (installFailMsg id e),
                    cleanupDir (pathJoin (getPlatformDir id) "temp_extract") fs3, none, ev⟩ := by
                simp only [downloadBinaries, hlook, hdl, if_neg hfmt, hex, hpf]
              rw [hrun]
              refine ⟨fun _ => rfl, ?_⟩
              intro c2 hc2
              cases hc2
          | ok =>
              rcases hpp : processKind opts.ffprobe w.isWindows (strStarts id "win32")
                  (getPlatformDir id) (pathJoin (getPlatformDir id) "temp_extract")
                  src.ffprobePath "ffprobe" w.tree fs3 with ⟨rFP, fs4⟩
              cases rFP with
              | err e =>
                  have hrun : downloadBinaries id opts w fs cfgState now =
                      ⟨.err (installFailMsg id e),
                        cleanupDir (pathJoin (getPlatformDir id) "temp_extract") fs4, none, ev⟩ := by
                    simp only [downloadBinaries, hlook, hdl, if_neg hfmt, hex, hpf, hpp]
                  rw [hrun]
                  refine ⟨fun _ => rfl, ?_⟩
                  intro c2 hc2
                  cases hc2
              | ok =>
                  have hrun : downloadBinaries id opts w fs cfgState now =
                      ⟨.ok, cleanupDir (pathJoin (getPlatformDir id) "temp_extract") fs4,
                        some (updateConfig (readConfigOrFresh cfgState now) id
                          ⟨src.version, src.url, src.ffmpegPath⟩
                          ⟨src.version, src.url, src.ffprobePath⟩ opts now), ev⟩ := by
                    simp only [downloadBinaries, hlook, hdl, if_neg hfmt, hex, hpf, hpp]
                  rw [hrun]
                  constructor
                  · intro h
                    cases h
                  · intro c2 hc2
                    have hc2e : c2 = updateConfig (readConfigOrFresh cfgState now) id
                        ⟨src.version, src.url, src.ffmpegPath⟩
                        ⟨src.version, src.url, src.ffprobePath⟩ opts now := by
                      cases hc2
                      rfl
                    refine ⟨rfl, ?_, ?_, ?_, ?_⟩
                    · intro hreq
                      rw [hreq] at hpf
                      have hok : (processKind true w.isWindows (strStarts id "win32")
                          (getPlatformDir id) (pathJoin (getPlatformDir id) "temp_extract")
                          src.ffmpegPath "ffmpeg" w.tree fs2).1 = .ok := by
                        rw [hpf]
                      obtain ⟨c, m, hplace, hexec⟩ := processKind_ok_places _ _ _ _ _ _ _ _ hok
                      rw [hpf] at hplace
                      refine ⟨⟨c, m⟩, ?_, ?_⟩
                      · rw [alookup_cleanup_keep _ _ _ hffU]
                        have h4 := processKind_fs_ne opts.ffprobe w.isWindows
                            (strStarts id "win32") (getPlatformDir id)
                            (pathJoin (getPlatformDir id) "temp_extract") src.ffprobePath
                            "ffprobe" w.tree fs3
                            (pathJoin (getPlatformDir id) (basename src.ffmpegPath)) hneq
                        rw [hpp] at h4
                        rw [h4]
                        exact hplace
                      · intro hwin i hi
                        exact hexec hwin i hi
                    · intro hreq
                      rw [hreq] at hpp
                      have hok : (processKind true w.isWindows (strStarts id "win32")
                          (getPlatformDir id) (pathJoin (getPlatformDir id) "temp_extract")
                          src.ffprobePath "ffprobe" w.tree fs3).1 = .ok := by
                        rw [hpp]
                      obtain ⟨c, m, hplace, hexec⟩ := processKind_ok_places _ _ _ _ _ _ _ _ hok
                      rw [hpp] at hplace
                      refine ⟨⟨c, m⟩, ?_, ?_⟩
                      · rw [alookup_cleanup_keep _ _ _ hfpU]
                        exact hplace
                      · intro hwin i hi
                        exact hexec hwin i hi
                    · intro hreq
                      rw [hc2e, getBinary_updateConfig_same_id]
                      simp [InstallOptions.forKind, hreq]
                    · intro hreq
                      rw [hc2e, getBinary_updateConfig_same_id]
                      simp [InstallOptions.forKind, hreq]


/-! ## Claim theorems -/

/-- Claim C1: in every run of the archive acquisition pipeline, a config
entry is written for a binary kind only if the corresponding file was, at
the time of the write, successfully placed in the platform directory and,
on non-Windows platform identifiers, given executable permission; a
requested kind whose placement step never ran gains no config entry, and a
kind that was not requested keeps its previous entry. -/
theorem claimC1 (id : String) (opts : InstallOptions) (w : World) (fs : FS)
    (cfgState : ConfigReadState) (now : String) :
    (alookup DOWNLOAD_SOURCES id = none →
        (downloadBinaries id opts w fs cfgState now).written = none) ∧
    (∀ src, alookup DOWNLOAD_SOURCES id = some src →
        ((downloadBinaries id opts w fs cfgState now).result.isErr = true →
            (downloadBinaries id opts w fs cfgState now).written = none) ∧
        (∀ c2, (downloadBinaries id opts w fs cfgState now).written = some c2 →
            (downloadBinaries id opts w fs cfgState now).result = .ok ∧
            (opts.ffmpeg = true → ∃ fd,
                alookup (downloadBinaries id opts w fs cfgState now).fs
                    (pathJoin (getPlatformDir id) (basename src.ffmpegPath)) = some fd ∧
                (strStarts id "win32" = false →
                    ∀ i, Nat.testBit 0o111 i = true → Nat.testBit fd.mode i = true)) ∧
            (opts.ffprobe = true → ∃ fd,
                alookup (downloadBinaries id opts w fs cfgState now).fs
                    (pathJoin (getPlatformDir id) (basename src.ffprobePath)) = some fd ∧
                (strStarts id "win32" = false →
                    ∀ i, Nat.testBit 0o111 i = true → Nat.testBit fd.mode i = true)) ∧
            (opts.ffmpeg = false → getBinary c2 id BinaryKind.ffmpeg =
                getBinary (readConfigOrFresh cfgState now) id BinaryKind.ffmpeg) ∧
            (opts.ffprobe = false → getBinary c2 id BinaryKind.ffprobe =
                getBinary (readConfigOrFresh cfgState now) id BinaryKind.ffprobe))) := by
  constructor
  · intro hnone
    simp only [downloadBinaries, hnone]
  · intro src hsome
    have hmem := alookup_mem _ _ _ hsome
    simp only [DOWNLOAD_SOURCES, List.mem_cons, List.not_mem_nil, or_false, Prod.mk.injEq] at hmem
    rcases hmem with ⟨h1, h2⟩ | ⟨h1, h2⟩ | ⟨h1, h2⟩ | ⟨h1, h2⟩ |
        ⟨h1, h2⟩ | ⟨h1, h2⟩ | ⟨h1, h2⟩ | ⟨h1, h2⟩ <;>
      subst h1 <;> subst h2 <;>
      exact archivePipeline_invariant _ _ opts w fs cfgState now hsome
        (by decide) (by decide) (by decide) (by decide)

/-- Witness for claim C1: a successful linux-x64 ffmpeg-only run leaves an
executable ffmpeg binary at its destination. -/
theorem claimC1_witness :
    ∃ fd, alookup (downloadBinaries "linux-x64" ⟨true, false⟩ exWorldLinux []
        ConfigReadState.absent "t").fs
        (pathJoin (getPlatformDir "linux-x64") (basename srcLinuxX64.ffmpegPath)) = some fd ∧
      (strStarts "linux-x64" "win32" = false →
          ∀ i, Nat.testBit 0o111 i = true → Nat.testBit fd.mode i = true) := by
  have h := (claimC1 "linux-x64" ⟨true, false⟩ exWorldLinux [] ConfigReadState.absent "t").2
      srcLinuxX64 (by decide)
  have hw : (downloadBinaries "linux-x64" ⟨true, false⟩ exWorldLinux []
      ConfigReadState.absent "t").written = some cfgLinuxFF := by decide
  exact ((h.2 cfgLinuxFF hw).2.1 rfl)

/-- Claim C2 counterexample: requesting the unsupported identifier
freebsd-x64 through the release downloader does make a network request (the
derived release URL is fetched), so the run does not abort before any
network call as the claim states for every variant. -/
theorem claimC2_counterexample :
    (downloadBinariesRelease "freebsd-x64" ⟨true, true⟩ ⟨[], false, "getaddrinfo ENOTFOUND"⟩
        ⟨[], false, "x"⟩ [] ConfigReadState.absent "t").fetched =
      ["https://github.com/w3vish/ffmpeg-installer/releases/download/v1.0.0/freebsd-x64-ffmpeg"] := by
  decide

/-- Claim C2 as amended: in the registry-based archive pipeline an
unsupported identifier aborts before any network request, with exit code 1
and no config write; the release downloader has no registry check and does
attempt a network request for the unsupported identifier, but when that
fetch fails the run still exits 1 without writing the config. -/
theorem claimC2 :
    (∀ (opts : InstallOptions) (w : World) (fs : FS) (cfgState : ConfigReadState) (now : String),
        downloadBinaries "freebsd-x64" opts w fs cfgState now =
          ⟨.err "No download source available for platform: freebsd-x64", fs, none, []⟩ ∧
        installExitCode (downloadBinaries "freebsd-x64" opts w fs cfgState now).result = 1) ∧
    (∀ (wFF wFP : FetchOutcome) (fs : FS) (cfgState : ConfigReadState) (now : String),
        wFF.ok = false →
        (downloadBinariesRelease "freebsd-x64" ⟨true, true⟩ wFF wFP fs cfgState now).written =
            none ∧
        (downloadBinariesRelease "freebsd-x64" ⟨true, true⟩ wFF wFP fs cfgState now).fetched ≠
            [] ∧
        installExitCode
            (downloadBinariesRelease "freebsd-x64" ⟨true, true⟩ wFF wFP fs cfgState now).result =
          1) := by
  constructor
  · intro opts w fs cfgState now
    exact ⟨rfl, rfl⟩
  · intro wFF wFP fs cfgState now hf
    have hd := downloadFile_fail
        (getGitHubReleaseUrl "freebsd-x64" "ffmpeg")
        (pathJoin (getPlatformDir "freebsd-x64") "ffmpeg") wFF fs hf
    have hrun : downloadBinariesRelease "freebsd-x64" ⟨true, true⟩ wFF wFP fs cfgState now =
        ⟨.err (installFailMsg "freebsd-x64"
            ("Failed to download from " ++ getGitHubReleaseUrl "freebsd-x64" "ffmpeg" ++ ": " ++
              wFF.msg)),
          streamTo (pathJoin (getPlatformDir "freebsd-x64") "ffmpeg") wFF fs, none,
          [getGitHubReleaseUrl "freebsd-x64" "ffmpeg"]⟩ := by
      simp only [downloadBinariesRelease, releaseKindStep,
        show strStarts "freebsd-x64" "win32" = false from by decide, Bool.false_eq_true,
        reduceIte, hd]
    rw [hrun]
    exact ⟨rfl, by simp, rfl⟩

/-- Witness for claim C2: the release downloader on freebsd-x64 with a
failing fetch writes no config, fetches a URL, and exits 1. -/
theorem claimC2_witness :
    (downloadBinariesRelease "freebsd-x64" ⟨true, true⟩ ⟨[], false, "refused"⟩ ⟨[], false, "x"⟩
        [] ConfigReadState.absent "t").written = none ∧
    (downloadBinariesRelease "freebsd-x64" ⟨true, true⟩ ⟨[], false, "refused"⟩ ⟨[], false, "x"⟩
        [] ConfigReadState.absent "t").fetched ≠ [] ∧
    installExitCode (downloadBinariesRelease "freebsd-x64" ⟨true, true⟩ ⟨[], false, "refused"⟩
        ⟨[], false, "x"⟩ [] ConfigReadState.absent "t").result = 1 :=
  claimC2.2 ⟨[], false, "refused"⟩ ⟨[], false, "x"⟩ [] ConfigReadState.absent "t" rfl

/-- Claim C3: upserting one ConfigBinaryInfo for a (platform, kind) pair
and reading it back returns exactly the written info, and every entry for
any other platform or other kind is unchanged. -/
theorem claimC3 (c : ConfigFile) (id : String) (k : BinaryKind) (info : ConfigBinaryInfo)
    (now : String) :
    getBinary (updateConfig c id info info (requestOnly k) now) id k = some info ∧
    ∀ id2 k2, id2 ≠ id ∨ k2 ≠ k →
      getBinary (updateConfig c id info info (requestOnly k) now) id2 k2 =
        getBinary c id2 k2 := by
  constructor
  · rw [getBinary_updateConfig_same_id]
    cases k <;> simp [requestOnly, InstallOptions.forKind, kindInfo]
  · intro id2 k2 hor
    by_cases hid : id2 = id
    · subst hid
      have hk : k2 ≠ k := by
        rcases hor with h | h
        · exact absurd rfl h
        · exact h
      rw [getBinary_updateConfig_same_id]
      have hfk : (requestOnly k).forKind k2 = false := by
        cases k <;> cases k2 <;> simp_all [requestOnly, InstallOptions.forKind]
      rw [hfk]
      simp
    · exact getBinary_updateConfig_other_id c id id2 info info (requestOnly k) now k2 hid

/-- Witness for claim C3: an ffmpeg upsert for linux-x64 is read back
unchanged and a pre-existing win32-x64 ffprobe entry is untouched. -/
theorem claimC3_witness :
    getBinary (updateConfig exCfg "linux-x64" exInfo exInfo (requestOnly BinaryKind.ffmpeg) "t2")
        "linux-x64" BinaryKind.ffmpeg = some exInfo ∧
    getBinary (updateConfig exCfg "linux-x64" exInfo exInfo (requestOnly BinaryKind.ffmpeg) "t2")
        "win32-x64" BinaryKind.ffprobe = getBinary exCfg "win32-x64" BinaryKind.ffprobe :=
  ⟨(claimC3 exCfg "linux-x64" BinaryKind.ffmpeg exInfo "t2").1,
    (claimC3 exCfg "linux-x64" BinaryKind.ffmpeg exInfo "t2").2 "win32-x64" BinaryKind.ffprobe
      (Or.inl (by decide))⟩

/-- Claim C4: whenever the config file is absent, unreadable or not valid
JSON, the read phase of the config store returns a fresh empty config
(platforms empty, lastUpdated now) instead of raising. -/
theorem claimC4 (st : ConfigReadState) (now : String)
    (h : ∀ c, st ≠ ConfigReadState.parsed c) :
    readConfigOrFresh st now = freshConfig now ∧
    (readConfigOrFresh st now).platforms = [] ∧
    (readConfigOrFresh st now).lastUpdated = now := by
  cases st with
  | absent => exact ⟨rfl, rfl, rfl⟩
  | readFailure => exact ⟨rfl, rfl, rfl⟩
  | invalid => exact ⟨rfl, rfl, rfl⟩
  | parsed c => exact absurd rfl (h c)

/-- Witness for claim C4: invalid JSON yields the fresh empty config. -/
theorem claimC4_witness :
    readConfigOrFresh ConfigReadState.invalid "t3" = freshConfig "t3" ∧
    (readConfigOrFresh ConfigReadState.invalid "t3").platforms = [] ∧
    (readConfigOrFresh ConfigReadState.invalid "t3").lastUpdated = "t3" :=
  claimC4 ConfigReadState.invalid "t3" (by intro c hc; cases hc)

/-- Claim C5: the locate step checks the exact in-archive path first and
uses it directly when present; otherwise it runs the breadth-first
case-insensitive search (with .exe appended on Windows hosts), which finds
a case-differing file such as FFmpeg.exe when searching for ffmpeg.exe; and
an exhausted search fails with a binary-not-found error instead of falling
back to a guessed path. -/
theorem claimC5 :
    (∀ (isWin : Bool) (tempDir srcPath kindLabel : String) (tree : FSTreeList) (node : FSTree),
        srcPath ≠ "" → lookupTree (splitSlash srcPath) tree = some node →
        locateBinary isWin tempDir srcPath kindLabel tree =
          .ok (pathJoin tempDir srcPath, nodePayload node)) ∧
    (locateBinary true "/x/temp_extract" "bin/ffmpeg.exe" "ffmpeg" exCaseTree =
        .ok ("/x/temp_extract/sub/FFmpeg.exe", some ("MZBIN", 0o644))) ∧
    (∀ (isWin : Bool) (tempDir srcPath kindLabel : String) (tree : FSTreeList),
        lookupTree (splitSlash srcPath) tree = none →
        findBinaryInDirectory isWin tempDir tree (basename srcPath) = none →
        locateBinary isWin tempDir srcPath kindLabel tree =
          .error ("Could not find " ++ kindLabel ++ " binary in extracted files")) := by
  refine ⟨?_, ?_, ?_⟩
  · intro isWin tempDir srcPath kindLabel tree node hne hlt
    simp only [locateBinary, if_pos hne, hlt]
    cases node <;> rfl
  · rfl
  · intro isWin tempDir srcPath kindLabel tree hlt hbfs
    by_cases hemp : srcPath = ""
    · subst hemp
      simp [locateBinary, hbfs]
    · simp only [locateBinary, if_pos hemp, hlt, hbfs]

/-- Witness for claim C5: an exact-path hit is used directly. -/
theorem claimC5_witness :
    locateBinary false "/t" "ffmpeg" "ffmpeg" exExactTree =
      .ok (pathJoin "/t" "ffmpeg", nodePayload (FSTree.file "ffmpeg" "XX" 0o700)) :=
  claimC5.1 false "/t" "ffmpeg" "ffmpeg" exExactTree (FSTree.file "ffmpeg" "XX" 0o700)
    (by decide) rfl

/-- Claim C6 counterexample: the release downloader streams straight to the
final destination, so a fetch that fails mid-stream leaves a partial file at
the final binary path. -/
theorem claimC6_counterexample :
    (downloadBinariesRelease "linux-x64" ⟨true, false⟩ ⟨["PART"], false, "socket hang up"⟩
        ⟨[], true, ""⟩ [] ConfigReadState.absent "t").result.isErr = true ∧
    alookup (downloadBinariesRelease "linux-x64" ⟨true, false⟩ ⟨["PART"], false, "socket hang up"⟩
        ⟨[], true, ""⟩ [] ConfigReadState.absent "t").fs
      (pathJoin (getPlatformDir "linux-x64") "ffmpeg") = some ⟨"PART", 0o644⟩ := by
  decide

/-- Claim C6 as amended: in the archive pipeline a failed fetch aborts the
run with a descriptive error and no config write, and because the download
goes to the temp directory, which is removed on the way out, no path of the
filesystem gains content: every path is either unchanged or absent after
the failed run.  In the release downloader the download streams directly to
the final destination and a failed fetch can leave a partial file there. -/
theorem claimC6 (id : String) (opts : InstallOptions) (w : World) (fs : FS)
    (cfgState : ConfigReadState) (now : String) (hfail : w.fetch.ok = false) :
    (downloadBinaries id opts w fs cfgState now).result.isErr = true ∧
    (downloadBinaries id opts w fs cfgState now).written = none ∧
    ∀ p, alookup (downloadBinaries id opts w fs cfgState now).fs p = alookup fs p ∨
        alookup (downloadBinaries id opts w fs cfgState now).fs p = none := by
  cases hlook : alookup DOWNLOAD_SOURCES id with
  | none =>
      have hrun : downloadBinaries id opts w fs cfgState now =
          ⟨.err ("No download source available for platform: " ++ id), fs, none, []⟩ := by
        simp only [downloadBinaries, hlook]
      rw [hrun]
      exact ⟨rfl, rfl, fun p => Or.inl rfl⟩
  | some src =>
      have hd := downloadFile_fail src.url
          (pathJoin (pathJoin (getPlatformDir id) "temp_extract") ("download." ++ src.format))
          w.fetch fs hfail
      have hrun : downloadBinaries id opts w fs cfgState now =
          ⟨.err (installFailMsg id ("Failed to download from " ++ src.url ++ ": " ++ w.fetch.msg)),
            cleanupDir (pathJoin (getPlatformDir id) "temp_extract")
              (streamTo (pathJoin (pathJoin (getPlatformDir id) "temp_extract")
                ("download." ++ src.format)) w.fetch fs),
            none, [src.url]⟩ := by
        simp only [downloadBinaries, hlook, hd]
      rw [hrun]
      refine ⟨rfl, rfl, ?_⟩
      intro p
      cases hu : underDir (pathJoin (getPlatformDir id) "temp_extract") p with
      | false =>
          left
          rw [alookup_cleanup_keep _ _ _ hu]
          have hne : p ≠ pathJoin (pathJoin (getPlatformDir id) "temp_extract")
              ("download." ++ src.format) := by
            intro heq
            have hup := underDir_pathJoin (pathJoin (getPlatformDir id) "temp_extract")
                ("download." ++ src.format)
            rw [← heq, hu] at hup
            cases hup
          exact alookup_streamTo_ne _ _ _ _ hne
      | true =>
          right
          exact alookup_cleanup_drop _ _ _ hu

/-- Witness for claim C6: a failed linux-x64 archive run errors, writes no
config, and leaves an unrelated path unchanged. -/
theorem claimC6_witness :
    (downloadBinaries "linux-x64" ⟨true, true⟩ exWorldFail [] ConfigReadState.absent "t").result.isErr =
        true ∧
    (downloadBinaries "linux-x64" ⟨true, true⟩ exWorldFail [] ConfigReadState.absent "t").written =
        none ∧
    (alookup (downloadBinaries "linux-x64" ⟨true, true⟩ exWorldFail []
          ConfigReadState.absent "t").fs "/pkg/binaries/other" = alookup ([] : FS) "/pkg/binaries/other" ∨
      alookup (downloadBinaries "linux-x64" ⟨true, true⟩ exWorldFail []
          ConfigReadState.absent "t").fs "/pkg/binaries/other" = none) := by
  have h := claimC6 "linux-x64" ⟨true, true⟩ exWorldFail [] ConfigReadState.absent "t" rfl
  exact ⟨h.1, h.2.1, h.2.2 "/pkg/binaries/other"⟩

/-- Claim C7 counterexample: the preprocessing script chmods a placed
binary to exactly 0o755, so a previously set permission bit (here the
other-write bit of mode 0o777) is stripped, contradicting the claim that
making a placed binary executable always ors 0o755 onto the previous mode
and never strips a bit. -/
theorem claimC7_counterexample :
    Nat.testBit 0o777 1 = true ∧ Nat.testBit (chmod755Mode 0o777) 1 = false := by
  decide

/-- Claim C7 as amended: the makeExecutable helper of the installer sets
the mode to the previous mode ored with 0o755, so it keeps every previously
set bit and grants all execute bits; the preprocessing script instead sets
the mode to exactly 0o755 regardless of the previous mode, which can strip
previously set bits. -/
theorem claimC7 :
    (∀ m i, Nat.testBit m i = true → Nat.testBit (makeExecutableMode m) i = true) ∧
    (∀ m i, Nat.testBit 0o111 i = true → Nat.testBit (makeExecutableMode m) i = true) ∧
    (∀ m, chmod755Mode m = 0o755) :=
  ⟨makeExecutableMode_keeps, fun m i h => makeExecutableMode_exec m i h, fun _ => rfl⟩

/-- Witness for claim C7: mode 0o644 keeps its group-read bit after
makeExecutable. -/
theorem claimC7_witness :
    Nat.testBit 0o644 2 = true ∧ Nat.testBit (makeExecutableMode 0o644) 2 = true :=
  ⟨by decide, claimC7.1 0o644 2 (by decide)⟩

theorem extractArchiveP6_ok (f : String) (r : StepResult)
    (h : extractArchiveP6 f r = .ok) : r = .ok := by
  rw [extractArchiveP6.eq_def] at h
  by_cases h1 : f = "zip"
  · rw [if_pos h1] at h
    exact h
  · by_cases h2 : f = "tar.xz" ∨ f = "tar.gz"
    · rw [if_neg h1, if_pos h2] at h
      cases r with
      | ok => rfl
      | err m => cases h
    · rw [if_neg h1, if_neg h2] at h
      cases h

/-- When the secondary download fails at any stage (fetch, extraction or
search), the secondary block leaves both binary locations unchanged and
only touches the filesystem inside the temp directory. -/
theorem secondaryStep_unfulfilled (src : DownloadSourceESM) (sd : SecondaryDownload)
    (w : WorldP6) (tempDir : String) (fs : FS) (ffLoc fpLoc : Option Located)
    (hsd : src.secondaryDownload = some sd)
    (hsec : w.fetchSecondary.ok = false ∨ w.extractSecondary ≠ .ok ∨
        findBinary tempDir w.secondaryTree (basename sd.path) = none) :
    ∃ fsX, secondaryStep src w tempDir fs ffLoc fpLoc = (fsX, ffLoc, fpLoc, [sd.url]) ∧
      ∀ q, underDir tempDir q = false → alookup fsX q = alookup fs q := by
  have hqne : ∀ q, underDir tempDir q = false →
      q ≠ pathJoin tempDir ("secondary." ++ sd.format.getD src.format) := by
    intro q hq heq
    have hup := underDir_pathJoin tempDir ("secondary." ++ sd.format.getD src.format)
    rw [← heq, hq] at hup
    cases hup
  cases hfs : w.fetchSecondary.ok with
  | false =>
      have hsdl := downloadFile_fail sd.url
          (pathJoin tempDir ("secondary." ++ sd.format.getD src.format)) w.fetchSecondary fs hfs
      refine ⟨streamTo (pathJoin tempDir ("secondary." ++ sd.format.getD src.format))
          w.fetchSecondary fs, ?_, ?_⟩
      · simp only [secondaryStep, hsd, hsdl]
      · intro q hq
        exact alookup_streamTo_ne _ _ _ _ (hqne q hq)
  | true =>
      have hsdl := downloadFile_succeed sd.url
          (pathJoin tempDir ("secondary." ++ sd.format.getD src.format)) w.fetchSecondary fs hfs
      cases hes : extractArchiveP6 (sd.format.getD src.format) w.extractSecondary with
      | err m =>
          refine ⟨streamTo (pathJoin tempDir ("secondary." ++ sd.format.getD src.format))
              w.fetchSecondary fs, ?_, ?_⟩
          · simp only [secondaryStep, hsd, hsdl, hes]
          · intro q hq
            exact alookup_streamTo_ne _ _ _ _ (hqne q hq)
      | ok =>
          rcases hsec with h1 | h2 | h3
          · rw [h1] at hfs
            cases hfs
          · exact absurd (extractArchiveP6_ok _ _ hes) h2
          · refine ⟨materialize (streamTo
                (pathJoin tempDir ("secondary." ++ sd.format.getD src.format))
                w.fetchSecondary fs) tempDir w.secondaryTree, ?_, ?_⟩
            · simp only [secondaryStep, hsd, hsdl, hes, h3]
            · intro q hq
              rw [alookup_materialize_ne _ _ _ _ hq]
              exact alookup_streamTo_ne _ _ _ _ (hqne q hq)

/-- Claim C8: for a source that declares a secondary download (darwin-x64),
when the primary download succeeds and locates ffmpeg but the secondary
fetch, extraction or search fails, the run completes without crashing, the
kind satisfied by the primary download is present in the output directory,
and the kind dependent on the secondary download is simply absent. -/
theorem claimC8 (src : DownloadSourceESM) (w : WorldP6) (fs : FS) (p c : String) (m : Nat)
    (hsrc : alookup DOWNLOAD_SOURCES_ESM "darwin-x64" = some src)
    (hfetch : w.fetchPrimary.ok = true)
    (hextract : w.extractPrimary = .ok)
    (hfound : findBinary (pathJoin (pathJoin BINARIES_DIR "temp") "darwin-x64") w.primaryTree
        "ffmpeg" = some (p, c, m))
    (hsec : w.fetchSecondary.ok = false ∨ w.extractSecondary ≠ .ok ∨
        findBinary (pathJoin (pathJoin BINARIES_DIR "temp") "darwin-x64") w.secondaryTree
          "ffprobe" = none)
    (hinit : alookup fs (pathJoin (pathJoin BINARIES_DIR "darwin-x64") "ffprobe") = none) :
    (processPlatform "darwin-x64" src w fs).1 = .ok ∧
    alookup (processPlatform "darwin-x64" src w fs).2.1
        (pathJoin (pathJoin BINARIES_DIR "darwin-x64") "ffmpeg") = some ⟨c, 0o755⟩ ∧
    alookup (processPlatform "darwin-x64" src w fs).2.1
        (pathJoin (pathJoin BINARIES_DIR "darwin-x64") "ffprobe") = none := by
  have h0 : alookup DOWNLOAD_SOURCES_ESM "darwin-x64" = some srcDarwinX64 := rfl
  rw [h0] at hsrc
  have hsv : src = srcDarwinX64 := (Option.some.inj hsrc).symm
  subst hsv
  have hplat : SUPPORTED_PLATFORMS.find? (fun q => q.identifier == "darwin-x64") =
      some ⟨"darwin", "x64", "darwin-x64", ⟨"ffmpeg", "ffprobe"⟩⟩ := rfl
  have hdl := downloadFile_succeed srcDarwinX64.url
      (pathJoin (pathJoin (pathJoin BINARIES_DIR "temp") "darwin-x64")
        ("download." ++ srcDarwinX64.format)) w.fetchPrimary fs hfetch
  have hex : extractArchiveP6 srcDarwinX64.format w.extractPrimary = .ok := by
    rw [show extractArchiveP6 srcDarwinX64.format w.extractPrimary = w.extractPrimary from rfl,
      hextract]
  have hffL : locateP6 (pathJoin (pathJoin BINARIES_DIR "temp") "darwin-x64")
      srcDarwinX64.ffmpegPath w.primaryTree = some (p, some (c, m)) := by
    rw [show srcDarwinX64.ffmpegPath = some "ffmpeg" from rfl]
    simp only [locateP6, show hasSlash "ffmpeg" = false from by decide, Bool.false_eq_true,
      reduceIte, show basename "ffmpeg" = "ffmpeg" from rfl, hfound]
  have hfpL : locateP6 (pathJoin (pathJoin BINARIES_DIR "temp") "darwin-x64")
      srcDarwinX64.ffprobePath w.primaryTree = none := rfl
  have hsec2 : w.fetchSecondary.ok = false ∨ w.extractSecondary ≠ .ok ∨
      findBinary (pathJoin (pathJoin BINARIES_DIR "temp") "darwin-x64") w.secondaryTree
        (basename "ffprobe") = none := hsec
  obtain ⟨fsX, hseq, hpres⟩ := secondaryStep_unfulfilled srcDarwinX64
      ⟨"https://evermeet.cx/ffmpeg/ffprobe-7.0.2.zip", some "zip", "ffprobe"⟩ w
      (pathJoin (pathJoin BINARIES_DIR "temp") "darwin-x64")
      (materialize (streamTo (pathJoin (pathJoin (pathJoin BINARIES_DIR "temp") "darwin-x64")
          ("download." ++ srcDarwinX64.format)) w.fetchPrimary fs)
        (pathJoin (pathJoin BINARIES_DIR "temp") "darwin-x64") w.primaryTree)
      (some (p, some (c, m))) none rfl hsec2
  have hcm : chmod755 (aset fsX
      (pathJoin (pathJoin BINARIES_DIR "darwin-x64") "ffmpeg") ⟨c, m⟩)
      (pathJoin (pathJoin BINARIES_DIR "darwin-x64") "ffmpeg") =
      aset (aset fsX (pathJoin (pathJoin BINARIES_DIR "darwin-x64") "ffmpeg") ⟨c, m⟩)
        (pathJoin (pathJoin BINARIES_DIR "darwin-x64") "ffmpeg") ⟨c, 0o755⟩ := by
    unfold chmod755
    rw [alookup_aset_self]
    rfl
  have hne : pathJoin (pathJoin BINARIES_DIR "darwin-x64") "ffprobe" ≠
      pathJoin (pathJoin BINARIES_DIR "darwin-x64") "ffmpeg" := by decide
  refine ⟨?_, ?_, ?_⟩
  · simp only [processPlatform, hplat, hdl, hex, hffL, hfpL, hseq, copyIfLocated,
      show strStarts "darwin-x64" "win32" = false from by decide, Bool.false_eq_true,
      reduceIte, Option.isSome_some, Option.isSome_none]
  · simp only [processPlatform, hplat, hdl, hex, hffL, hfpL, hseq, copyIfLocated,
      show strStarts "darwin-x64" "win32" = false from by decide, Bool.false_eq_true,
      reduceIte, Option.isSome_some, Option.isSome_none]
    rw [hcm, alookup_aset_self]
  · simp only [processPlatform, hplat, hdl, hex, hffL, hfpL, hseq, copyIfLocated,
      show strStarts "darwin-x64" "win32" = false from by decide, Bool.false_eq_true,
      reduceIte, Option.isSome_some, Option.isSome_none]
    rw [hcm, alookup_aset_ne _ _ _ _ hne, alookup_aset_ne _ _ _ _ hne,
      hpres _ (by decide), alookup_materialize_ne _ _ _ _ (by decide),
      alookup_streamTo_ne _ _ _ _ (by decide), hinit]

/-- Witness for claim C8: concrete darwin-x64 run with a timed-out
secondary download keeps ffmpeg and leaves ffprobe absent. -/
theorem claimC8_witness :
    (processPlatform "darwin-x64" srcDarwinX64 exWorldDarwin []).1 = .ok ∧
    alookup (processPlatform "darwin-x64" srcDarwinX64 exWorldDarwin []).2.1
        (pathJoin (pathJoin BINARIES_DIR "darwin-x64") "ffmpeg") = some ⟨"FF", 0o755⟩ ∧
    alookup (processPlatform "darwin-x64" srcDarwinX64 exWorldDarwin []).2.1
        (pathJoin (pathJoin BINARIES_DIR "darwin-x64") "ffprobe") = none :=
  claimC8 srcDarwinX64 exWorldDarwin []
    "/pkg/binaries/temp/darwin-x64/ffmpeg" "FF" 0o644 rfl rfl rfl (by decide)
    (Or.inl rfl) rfl

/-- Claim C9 evidence: a successful win32-x64 archive run places the binary
in the platform directory under the basename ffmpeg.exe, yet records the
full in-archive path bin/ffmpeg.exe as relativePath, so joining the
platform directory with the recorded relativePath names a path that holds
no file.  This contradicts the claim (and the documented meaning of
relativePath as the path of the binary within the platform directory). -/
theorem claimC9 :
    (downloadBinaries "win32-x64" ⟨true, true⟩ exWorldWin [] ConfigReadState.absent "t").result =
        .ok ∧
    (downloadBinaries "win32-x64" ⟨true, true⟩ exWorldWin [] ConfigReadState.absent "t").written =
        some cfgWin ∧
    getBinary cfgWin "win32-x64" BinaryKind.ffmpeg = some infoWinFF ∧
    infoWinFF.relativePath = "bin/ffmpeg.exe" ∧
    basename "bin/ffmpeg.exe" = "ffmpeg.exe" ∧
    alookup (downloadBinaries "win32-x64" ⟨true, true⟩ exWorldWin [] ConfigReadState.absent "t").fs
        (pathJoin (getPlatformDir "win32-x64") (basename "bin/ffmpeg.exe")) =
      some ⟨"MZFF", 0o644⟩ ∧
    infoWinFF.relativePath ≠ basename "bin/ffmpeg.exe" ∧
    alookup (downloadBinaries "win32-x64" ⟨true, true⟩ exWorldWin [] ConfigReadState.absent "t").fs
        (pathJoin (getPlatformDir "win32-x64") infoWinFF.relativePath) = none := by
  refine ⟨?_, ?_, ?_, ?_, ?_, ?_, ?_, ?_⟩ <;> decide

/-- Claim C10: getBinaryPath succeeds exactly for the identifiers present
in the SUPPORTED_PLATFORMS table; any other identifier produces the
unsupported-platform error rather than a default-named path. -/
theorem claimC10 (id : String) (k : BinaryKind) :
    (getBinaryPath id k).isOk = true ↔ id ∈ SUPPORTED_PLATFORMS.map PlatformInfo.identifier := by
  cases hf : SUPPORTED_PLATFORMS.find? (fun q => q.identifier == id) with
  | none =>
      simp only [getBinaryPath, getPlatformByIdentifier, hf]
      constructor
      · intro h
        simp [Except.isOk, Except.toBool] at h
      · intro hmem
        rcases List.mem_map.mp hmem with ⟨q, hq, hqid⟩
        have hno := List.find?_eq_none.mp hf q hq
        simp [hqid] at hno
  | some q =>
      simp only [getBinaryPath, getPlatformByIdentifier, hf]
      constructor
      · intro _
        have hqmem := List.mem_of_find?_eq_some hf
        have hqid : (q.identifier == id) = true :=
          List.find?_some (p := fun r : PlatformInfo => r.identifier == id) hf
        rw [List.mem_map]
        exact ⟨q, hqmem, by simpa using hqid⟩
      · intro _
        rfl
